import Mathlib

/-!
Verification of the Open3D NumPy `.npy` codec (`cpp/open3d/core/NumpyIO.h`).

The file is a shallow embedding of the codec: byte streams are `List Char`
(one `Char` per C `char`), fallible code returns `Except NpError`, and the
C++ standard-library behaviours that the source relies on are modelled
explicitly:
  * `utility::LogError(msg)` (a terminal, typed failure) is `NpError.logError msg`
    with the exact message string of the call site;
  * `assert(cond)` (a debug-build abort, not a typed error) is `NpError.assertFail`;
  * `std::string::substr` / `std::stoi` throwing `std::out_of_range` is
    `NpError.outOfRange`;
  * undefined behaviour (dereferencing a null `FILE*` or a null
    `shared_ptr`, `operator[]` out of bounds, `std::string` built from a
    null pointer) is `NpError.ub`.
The host is assumed little-endian (x86), as the spec scopes; hence
`BigEndianChar()` returns `'<'` and multi-byte integers are serialised
little-endian.
-/

/-- Error outcomes of the codec, distinguishing the mechanisms used by the
source: `logError` for `utility::LogError` (with the call site's message),
`assertFail` for a failed C `assert`, `outOfRange` for a thrown
`std::out_of_range`, and `ub` for undefined behaviour. -/
inductive NpError where
  | logError (msg : String)
  | assertFail
  | outOfRange
  | ub
deriving DecidableEq, Repr

/-- Decidable equality of `Except` results, so that concrete runs of the
codec can be checked by `decide`. -/
instance {ε α : Type} [DecidableEq ε] [DecidableEq α] :
    DecidableEq (Except ε α) := fun a b =>
  match a, b with
  | .ok x, .ok y =>
    if h : x = y then .isTrue (by rw [h])
    else .isFalse (by intro hc; cases hc; exact h rfl)
  | .error x, .error y =>
    if h : x = y then .isTrue (by rw [h])
    else .isFalse (by intro hc; cases hc; exact h rfl)
  | .ok _, .error _ => .isFalse (by intro hc; cases hc)
  | .error _, .ok _ => .isFalse (by intro hc; cases hc)

/-- Modelled from the spec: the host element-type enumeration (`Dtype.h` is an
external collaborator, not part of the sources).  It provides the seven
supported element types `Float32, Float64, Int32, Int64, UInt8, UInt16, Bool`
plus further unsupported host types (including the spec's example of a
16-bit float) and an `Undefined` code. -/
inductive Dtype where
  | Undefined
  | Float16
  | Float32
  | Float64
  | Int8
  | Int16
  | Int32
  | Int64
  | UInt8
  | UInt16
  | UInt32
  | UInt64
  | Bool
deriving DecidableEq, Repr, Fintype

/-- Modelled from the spec: byte size of each host element type
(`Dtype::ByteSize()` lives in the external `Dtype.h`). -/
def Dtype.ByteSize : Dtype → Nat
  | .Undefined => 1
  | .Float16 => 2
  | .Float32 => 4
  | .Float64 => 8
  | .Int8 => 1
  | .Int16 => 2
  | .Int32 => 4
  | .Int64 => 8
  | .UInt8 => 1
  | .UInt16 => 2
  | .UInt32 => 4
  | .UInt64 => 8
  | .Bool => 1

/-- Modelled from the spec: display name of each host element type
(`Dtype::ToString()` lives in the external `Dtype.h`). -/
def Dtype.ToString : Dtype → String
  | .Undefined => "Undefined"
  | .Float16 => "Float16"
  | .Float32 => "Float32"
  | .Float64 => "Float64"
  | .Int8 => "Int8"
  | .Int16 => "Int16"
  | .Int32 => "Int32"
  | .Int64 => "Int64"
  | .UInt8 => "UInt8"
  | .UInt16 => "UInt16"
  | .UInt32 => "UInt32"
  | .UInt64 => "UInt64"
  | .Bool => "Bool"

/-- `BigEndianChar()`: probes the host byte order; on the little-endian hosts
in scope it returns `'<'`. -/
def BigEndianChar : Char := '<'

/-- Newline byte. -/
def nlChar : Char := Char.ofNat 10

/-- NUL byte. -/
def nulChar : Char := Char.ofNat 0

/-- Message of the `LogError` in `DtypeToChar`. -/
def unsupDtypeMsg (d : Dtype) : String :=
  "Unsupported dtype: " ++ d.ToString

/-- `DtypeToChar(dtype)`: numpy type-code of a host element type; calls
`utility::LogError` for any type outside the supported seven. -/
def DtypeToChar (dtype : Dtype) : Except NpError Char :=
  if dtype = Dtype.Float32 then .ok 'f'
  else if dtype = Dtype.Float64 then .ok 'f'
  else if dtype = Dtype.Int32 then .ok 'i'
  else if dtype = Dtype.Int64 then .ok 'i'
  else if dtype = Dtype.UInt8 then .ok 'u'
  else if dtype = Dtype.UInt16 then .ok 'u'
  else if dtype = Dtype.Bool then .ok 'b'
  else .error (.logError (unsupDtypeMsg dtype))

/-- Decimal rendering of a natural number (the behaviour of
`std::stringstream <<` / `fmt::format` on an unsigned integer), written with
explicit fuel so that it computes by structural recursion. -/
def natToDecAux : Nat → Nat → List Char
  | 0, _ => []
  | fuel + 1, n =>
    if n < 10 then [Char.ofNat (48 + n)]
    else natToDecAux fuel (n / 10) ++ [Char.ofNat (48 + n % 10)]

/-- Decimal rendering of a natural number. -/
def natToDec (n : Nat) : List Char := natToDecAux (n + 1) n

/-- Separator rendered between dimensions of a rank-≥2 shape. -/
def commaSpace : List Char := ", ".data

/-- Shape text rendering of `CreateNumpyHeader`: `{} -> "()"`,
`{1} -> "(1,)"`, `{1, 2} -> "(1, 2)"`.  (The `if (shape.size() == 1)` inside
the final branch of the source is unreachable there and is omitted.) -/
def shapeText : List Nat → List Char
  | [] => "()".data
  | [d] => "(".data ++ natToDec d ++ ",)".data
  | d :: rest => "(".data ++ natToDec d ++
      rest.foldl (fun acc x => acc ++ commaSpace ++ natToDec x) [] ++ ")".data

/-- Fixed text of the header dict before the descr value. -/
def dictFixedA : List Char := "\x7b'descr': '".data

/-- Fixed text of the header dict between the descr value and the shape. -/
def dictFixedB : List Char := "', 'fortran_order': False, 'shape': ".data

/-- Fixed text closing the header dict. -/
def dictFixedC : List Char := ", \x7d".data

/-- The header dict string before padding, as built by the `fmt::format`
call in `CreateNumpyHeader`. -/
def dictChars (shape : List Nat) (c : Char) (byteSize : Nat) : List Char :=
  dictFixedA ++ [BigEndianChar] ++ [c] ++ natToDec byteSize ++
    dictFixedB ++ shapeText shape ++ dictFixedC

/-- The header dict after space padding and the final newline:
`space_padding = 16 - (10 + dict.size()) % 16 - 1` spaces, then `'\n'`. -/
def paddedDict (shape : List Nat) (c : Char) (byteSize : Nat) : List Char :=
  let dict := dictChars shape c byteSize
  dict ++ List.replicate (16 - (10 + dict.length) % 16 - 1) ' ' ++ [nlChar]

/-- `ToByteString((uint16_t)n)` on a little-endian host: the two bytes of
`n mod 2^16`, low byte first. -/
def u16le (n : Nat) : List Char :=
  [Char.ofNat (n % 256), Char.ofNat (n / 256 % 256)]

/-- The fixed magic values: `0x93`, `"NUMPY"`, major version 1, minor 0. -/
def magicChars : List Char :=
  [Char.ofNat 0x93] ++ "NUMPY".data ++ [Char.ofNat 1, Char.ofNat 0]

/-- The full encoded header: magic values, 2-byte dict length, dict. -/
def headerEnvelope (dict : List Char) : List Char :=
  magicChars ++ u16le dict.length ++ dict

/-- `CreateNumpyHeader(shape, dtype)`: the byte sequence of the `.npy`
header for the given shape and element type. -/
def CreateNumpyHeader (shape : List Nat) (dtype : Dtype) :
    Except NpError (List Char) :=
  match DtypeToChar dtype with
  | .error e => .error e
  | .ok c => .ok (headerEnvelope (paddedDict shape c dtype.ByteSize))

/-- The decoded-metadata record produced by `ParseNumpyHeader` through its
output parameters `type`, `word_size`, `shape`, `fortran_order`. -/
structure HeaderInfo where
  type : Char
  word_size : Nat
  shape : List Nat
  fortran_order : Bool
deriving DecidableEq, Repr

/-- The `NumpyArray` class: an owning byte buffer (`data_holder`, `none`
when the `shared_ptr` is null) plus shape/type/layout metadata. -/
structure NumpyArray where
  data_holder : Option (List Char)
  shape_ : List Nat
  type_ : Char
  word_size_ : Nat
  fortran_order_ : Bool
  num_elements_ : Nat
deriving DecidableEq, Repr

/-- `size_t` modulus: sizes and string positions are 64-bit unsigned, and
every `size_t` multiplication wraps modulo `2^64`. -/
def sizeTMod : Nat := 2 ^ 64

/-- The shape/type constructor of `NumpyArray`: element count accumulated
by `num_elements_ *= shape_[i]` in `size_t` (each multiplication wrapping
modulo `2^64`, starting from 1), and the buffer a zero-initialised
`std::vector<char>` of `num_elements_ * word_size_` bytes — again a
`size_t` product (the allocation is assumed to succeed). -/
def NumpyArray.construct (shape : List Nat) (type : Char) (word_size : Nat)
    (fortran_order : Bool) : NumpyArray :=
  let n := shape.foldl (fun a b => a * b % sizeTMod) 1
  { data_holder := some (List.replicate (n * word_size % sizeTMod) nulChar)
    shape_ := shape
    type_ := type
    word_size_ := word_size
    fortran_order_ := fortran_order
    num_elements_ := n }

/-- The default constructor of `NumpyArray`: empty shape, zero word size,
`fortran_order_ = false`, zero elements — and a default-constructed (null)
`shared_ptr` as `data_holder`.  The field `type_` is left uninitialised by
the source, so the model takes its indeterminate value as a parameter. -/
def NumpyArray.defaultCtor (t : Char) : NumpyArray :=
  { data_holder := none
    shape_ := []
    type_ := t
    word_size_ := 0
    fortran_order_ := false
    num_elements_ := 0 }

/-- Message of the `LogError` in `GetDtype`, with its two format arguments. -/
def unsupNumpyMsg (t : Char) (w : Nat) : String :=
  "Unsupported Numpy type " ++ String.singleton t ++ " word_size_ " ++
    String.mk (natToDec w) ++ "."

/-- The `(type, word_size) -> Dtype` table of `NumpyArray::GetDtype`,
abstracted over the two fields it reads. -/
def getDtypeRaw (t : Char) (w : Nat) : Except NpError Dtype :=
  if t = 'f' ∧ w = 4 then .ok .Float32
  else if t = 'f' ∧ w = 8 then .ok .Float64
  else if t = 'i' ∧ w = 4 then .ok .Int32
  else if t = 'i' ∧ w = 8 then .ok .Int64
  else if t = 'u' ∧ w = 1 then .ok .UInt8
  else if t = 'u' ∧ w = 2 then .ok .UInt16
  else if t = 'b' then .ok .Bool
  else .error (.logError (unsupNumpyMsg t w))

/-- `NumpyArray::GetDtype()`: looks the `(type_, word_size_)` pair up in the
fixed table, calling `utility::LogError` when the resulting dtype code is
`Undefined`. -/
def NumpyArray.GetDtype (a : NumpyArray) : Except NpError Dtype :=
  getDtypeRaw a.type_ a.word_size_

/-- `NumpyArray::GetShape()` (the `SizeVector` is modelled as `List Nat`). -/
def NumpyArray.GetShape (a : NumpyArray) : List Nat := a.shape_

/-- `NumpyArray::GetFortranOrder()`. -/
def NumpyArray.GetFortranOrder (a : NumpyArray) : Bool := a.fortran_order_

/-- `NumpyArray::NumBytes()`: `data_holder->size()`; dereferencing the null
`shared_ptr` of a default-constructed array is undefined behaviour. -/
def NumpyArray.NumBytes (a : NumpyArray) : Except NpError Nat :=
  match a.data_holder with
  | none => .error .ub
  | some buf => .ok buf.length

/-- Index search used by `std::string::find`: smallest position where the
pattern occurs, `none` for `npos`. -/
def strFindGo (pat : List Char) : List Char → Nat → Option Nat
  | [], i => if pat.isPrefixOf ([] : List Char) then some i else none
  | c :: t, i =>
    if pat.isPrefixOf (c :: t) then some i else strFindGo pat t (i + 1)

/-- `s.find(pat)`: first occurrence of `pat` in `s`, `none` for `npos`. -/
def strFind (s pat : List Char) : Option Nat := strFindGo pat s 0

/-- `s.substr(pos, count)`: throws `std::out_of_range` when `pos > s.size()`,
otherwise clamps `count` to the remaining length. -/
def substrE (s : List Char) (pos count : Nat) : Except NpError (List Char) :=
  if pos > s.length then .error .outOfRange
  else .ok ((s.drop pos).take count)

/-- `s.substr(pos)` (count defaulted to `npos`). -/
def substrAllE (s : List Char) (pos : Nat) : Except NpError (List Char) :=
  if pos > s.length then .error .outOfRange else .ok (s.drop pos)

/-- `s[i]` on a `std::string`: in range gives the character, `i = size()`
gives the null terminator, beyond that is undefined behaviour. -/
def atE (s : List Char) (i : Nat) : Except NpError Char :=
  if h : i < s.length then .ok (s.get ⟨i, h⟩)
  else if i = s.length then .ok nulChar
  else .error .ub

/-- Value of a digit string (most significant first). -/
def digitsVal (l : List Char) : Nat :=
  l.foldl (fun a c => a * 10 + (c.toNat - 48)) 0

/-- The whitespace test of `atoi` (C `isspace`). -/
def isSpaceCh (c : Char) : Bool :=
  c == ' ' || c == '\t' || c == '\n' || c == Char.ofNat 11 ||
    c == Char.ofNat 12 || c == '\r'

/-- C `atoi`: skip whitespace, optional sign, leading digits; 0 when there
are none.  (Overflow, undefined for `atoi`, is not reached by the codec's
bounded header line.) -/
def atoiInt (s : List Char) : Int :=
  match s.dropWhile isSpaceCh with
  | [] => 0
  | c :: r =>
    if c = '-' then - (digitsVal (r.takeWhile Char.isDigit) : Nat)
    else if c = '+' then (digitsVal (r.takeWhile Char.isDigit) : Nat)
    else (digitsVal ((c :: r).takeWhile Char.isDigit) : Nat)

/-- `std::stoi` on one regex-extracted digit run: its numeric value, or a
thrown `std::out_of_range` beyond `INT_MAX`. -/
def stoiE (s : List Char) : Except NpError Nat :=
  let v := digitsVal (s.takeWhile Char.isDigit)
  if v > 2147483647 then .error .outOfRange else .ok v

/-- The maximal decimal-digit runs of a string, in order: the successive
matches of the `std::regex` `[0-9][0-9]*` search loop. -/
def digitRunsGo : List Char → List Char → List (List Char)
  | cur, [] => if cur = [] then [] else [cur.reverse]
  | cur, c :: rest =>
    if c.isDigit then digitRunsGo (c :: cur) rest
    else if cur = [] then digitRunsGo [] rest
    else cur.reverse :: digitRunsGo [] rest

/-- All maximal digit runs of a string. -/
def digitRuns (s : List Char) : List (List Char) := digitRunsGo [] s

/-- `std::stoi` applied to each digit run in order (the shape loop). -/
def stoiList : List (List Char) → Except NpError (List Nat)
  | [] => .ok []
  | r :: rs =>
    match stoiE r with
    | .error e => .error e
    | .ok v =>
      match stoiList rs with
      | .error e => .error e
      | .ok vs => .ok (v :: vs)

/-- One line read by `fgets(buffer, 256, fp)`: at most `fuel` characters,
stopping after a newline.  Returns the consumed characters and the rest of
the stream. -/
def readLineAux : Nat → List Char → List Char × List Char
  | 0, rest => ([], rest)
  | _ + 1, [] => ([], [])
  | fuel + 1, c :: rest =>
    if c = nlChar then ([c], rest)
    else
      let p := readLineAux fuel rest
      (c :: p.1, p.2)

/-- `fgets(buffer, 256, fp)`: `none` (a null pointer) at end of stream,
otherwise up to 255 characters ending at the first newline. -/
def fgets256 (s : List Char) : Option (List Char × List Char) :=
  if s = [] then none else some (readLineAux 255 s)

/-- `std::string` built from the `char*` returned by `fgets`: the characters
up to the first NUL byte. -/
def cString (l : List Char) : List Char := l.takeWhile (fun c => c != nulChar)

/-- The keyword searched for the layout flag. -/
def fortranKW : List Char := "fortran_order".data

/-- The keyword searched for the element type. -/
def descrKW : List Char := "descr".data

/-- The literal compared against the four characters after the layout
keyword. -/
def trueLit : List Char := "True".data

/-- Opening parenthesis of the shape tuple. -/
def parenL : List Char := "(".data

/-- Closing parenthesis of the shape tuple. -/
def parenR : List Char := ")".data

/-- Single-quote character searched to delimit the word size. -/
def quoteKW : List Char := "'".data

/-- `std::string::npos`. -/
def nposVal : Nat := 2 ^ 64 - 1

/-- Message of the preamble-read `LogError` in `ParseNumpyHeader`. -/
def msgHdrFread : String := "ParseNumpyHeader: failed fread"

/-- Message of the missing-`fortran_order` `LogError`. -/
def msgNoFortran : String :=
  "ParseNumpyHeader: failed to find header keyword: 'fortran_order'"

/-- Message of the missing-parenthesis `LogError`. -/
def msgNoParen : String :=
  "ParseNumpyHeader: failed to find header keyword: '(' or ')'"

/-- Message of the missing-`descr` `LogError`. -/
def msgNoDescr : String :=
  "ParseNumpyHeader: failed to find header keyword: 'descr'"

/-- Message of the payload-read `LogError` in `Load`. -/
def msgLoadFread : String := "LoadTheNumpyFile: failed fread"

/-- Message of the open-failure `LogError` in `Load`. -/
def msgOpenFail (file_name : String) : String :=
  "NumpyLoad: Unable to open file " ++ file_name ++ "."

/-- The `fortran_order` section of `ParseNumpyHeader`: find the keyword
(`LogError` when absent), then compare `header.substr(loc1 + 16, 4)` with
`"True"`. -/
def parseFortran (header : List Char) : Except NpError Bool :=
  match strFind header fortranKW with
  | none => .error (.logError msgNoFortran)
  | some loc1 =>
    match substrE header (loc1 + 16) 4 with
    | .error e => .error e
    | .ok sub => .ok (sub == trueLit)

/-- The shape section of `ParseNumpyHeader`: find the first `(` and `)`
(`LogError` when either is absent), take the characters between them
(`loc2 - loc1 - 1` computed in `size_t`), and `std::stoi` every maximal
digit run. -/
def parseShape (header : List Char) : Except NpError (List Nat) :=
  match strFind header parenL, strFind header parenR with
  | some loc1, some loc2 =>
    match substrE header (loc1 + 1) ((loc2 + sizeTMod - loc1 - 1) % sizeTMod) with
    | .error e => .error e
    | .ok str_shape => stoiList (digitRuns str_shape)
  | _, _ => .error (.logError msgNoParen)

/-- The `descr` section of `ParseNumpyHeader`: find the keyword (`LogError`
when absent); `header[loc1 + 9]` is the endianness marker, `assert`ed to be
`<` or `|`; `header[loc1 + 10]` is the type code; the word size is `atoi` of
`header.substr(loc1 + 11)` cut at the next quote. -/
def parseDescr (header : List Char) : Except NpError (Char × Nat) :=
  match strFind header descrKW with
  | none => .error (.logError msgNoDescr)
  | some loc1 =>
    match atE header (loc1 + 9) with
    | .error e => .error e
    | .ok mark =>
      if mark = '<' ∨ mark = '|' then
        match atE header (loc1 + 10) with
        | .error e => .error e
        | .ok ty =>
          match substrAllE header (loc1 + 11) with
          | .error e => .error e
          | .ok str_ws =>
            let cut := match strFind str_ws quoteKW with
              | some j => j
              | none => nposVal
            match substrE str_ws 0 cut with
            | .error e => .error e
            | .ok wstr => .ok (ty, (atoiInt wstr % (sizeTMod : Int)).toNat)
      else .error .assertFail

/-- The keyword-parsing part of `ParseNumpyHeader`, applied to the header
line string: layout flag, then shape, then descr, in source order, each
failure terminal. -/
def parseHeaderLine (header : List Char) : Except NpError HeaderInfo :=
  match parseFortran header with
  | .error e => .error e
  | .ok fortran_order =>
    match parseShape header with
    | .error e => .error e
    | .ok shape =>
      match parseDescr header with
      | .error e => .error e
      | .ok (ty, word_size) =>
        .ok { type := ty, word_size := word_size, shape := shape,
              fortran_order := fortran_order }

/-- `NumpyArray::ParseNumpyHeader(fp, ...)`: read and discard 11 bytes
(the 10-byte preamble plus the first dict byte), `fgets` one line (a null
return makes the `std::string` construction undefined), `assert` the line
ends in a newline (reading `header[size - 1]` of an empty string is
undefined), then parse the three keyword sections.  Returns the decoded
metadata and the unconsumed stream. -/
def ParseNumpyHeader (s : List Char) :
    Except NpError (HeaderInfo × List Char) :=
  if s.length < 11 then .error (.logError msgHdrFread)
  else
    match fgets256 (s.drop 11) with
    | none => .error .ub
    | some (line, rest) =>
      let header := cString line
      if header.length = 0 then .error .ub
      else if header.getLast? ≠ some nlChar then .error .assertFail
      else
        match parseHeaderLine header with
        | .error e => .error e
        | .ok info => .ok (info, rest)

/-- `NumpyArray::Load(file_name)`: `contents` is what `fopen` finds (`none`
when the file cannot be opened, which raises the open-failure `LogError`);
otherwise parse the header, construct the array, and `fread` exactly
`NumBytes()` payload bytes, with a `LogError` when fewer are available. -/
def NumpyArray.Load (file_name : String) (contents : Option (List Char)) :
    Except NpError NumpyArray :=
  match contents with
  | none => .error (.logError (msgOpenFail file_name))
  | some s =>
    match ParseNumpyHeader s with
    | .error e => .error e
    | .ok (info, rest) =>
      let arr := NumpyArray.construct info.shape info.type info.word_size
        info.fortran_order
      match arr.NumBytes with
      | .error e => .error e
      | .ok nb =>
        if min rest.length nb ≠ nb then .error (.logError msgLoadFread)
        else .ok { arr with data_holder := some (rest.take nb) }

/-- `NumpySave(fname, data, shape, dtype)`: open the target (`canOpen` is
whether `fopen` succeeds — the source never checks, so a null `FILE*` is
passed to `fseek`/`fwrite`, undefined behaviour), encode the header, and
write it followed by `num_elements * dtype.ByteSize()` bytes of `data`
(reading past the supplied buffer is likewise undefined).  The result is
the byte content of the written file.  (`std::accumulate` with the literal
`1` as initial value truncates through `int`; the model is the exact
product, faithful below `2^31`.) -/
def NumpySave (canOpen : Bool) (data : List Char) (shape : List Nat)
    (dtype : Dtype) : Except NpError (List Char) :=
  match CreateNumpyHeader shape dtype with
  | .error e => .error e
  | .ok header =>
    let num_elements := shape.foldl (fun a b => a * b) 1
    if canOpen = false then .error .ub
    else if data.length < num_elements * dtype.ByteSize then .error .ub
    else .ok (header ++ data.take (num_elements * dtype.ByteSize))

/-- Value of an `Except` carrying a byte list, defaulted on error. -/
def okD (e : Except NpError (List Char)) : List Char :=
  match e with
  | .ok v => v
  | .error _ => []

/-- Value of an `Except` carrying header metadata, defaulted on error. -/
def okDInfo (e : Except NpError HeaderInfo) : HeaderInfo :=
  match e with
  | .ok v => v
  | .error _ => { type := 'x', word_size := 0, shape := [], fortran_order := false }

/-- The encoded header of a given shape and supported dtype. -/
def hdrOf (shape : List Nat) (d : Dtype) : List Char :=
  okD (CreateNumpyHeader shape d)

/-- The metadata decoded back from the encoded header of a shape and dtype. -/
def infoOf (shape : List Nat) (d : Dtype) : HeaderInfo :=
  okDInfo (parseHeaderLine ((hdrOf shape d).drop 11))

/-- The seven element types the codec supports. -/
def supportedDtypes : List Dtype :=
  [.Float32, .Float64, .Int32, .Int64, .UInt8, .UInt16, .Bool]

/-- The four shapes of the round-trip property. -/
def rtShapes : List (List Nat) := [[], [5], [2, 3], [0]]

/-- A file name for the loads (the name only feeds the open-failure
message). -/
def fnA : String := "test.npy"

/-- A 24-byte payload for a `(2, 3)` float32 round trip. -/
def pl24 : List Char := List.replicate 24 'z'

/-- A 3-byte ASCII payload. -/
def abcChars : List Char := "abc".data

/-- A 5-byte ASCII payload. -/
def abcdeChars : List Char := "abcde".data

/-- A 2-byte ASCII fragment. -/
def zzChars : List Char := "zz".data

/-- A word that contains none of the header keywords. -/
def helloChars : List Char := "hello".data

/-- A truncated file: the header of a `(5,)` uint8 array, declaring 5
payload bytes, followed by only 3. -/
def truncFile : List Char := hdrOf [5] Dtype.UInt8 ++ abcChars

/-- The metadata of the `(5,)` uint8 header. -/
def truncInfo : HeaderInfo :=
  { type := 'u', word_size := 1, shape := [5], fortran_order := false }

/-- A well-formed `(5,)` uint8 file whose endianness marker is replaced by
`'>'`. -/
def gtFile : List Char :=
  ((hdrOf [5] Dtype.UInt8).map (fun c => if c = '<' then '>' else c)) ++
    abcdeChars

/-- A stream whose header line never terminates in a newline. -/
def noNlFile3 : List Char := List.replicate 11 'w' ++ "zzz".data

/-- The header line of the `(5,)` uint8 file. -/
def okHdr5u : List Char := (hdrOf [5] Dtype.UInt8).drop 11

/-- Another stream whose header line lacks a newline. -/
def noNlFile8 : List Char := List.replicate 11 'x' ++ abcChars

/-- A third newline-less stream, for the bounded-line witness. -/
def noNlFile8b : List Char := List.replicate 11 'y' ++ zzChars

/-- A stream whose header line is exactly `fortran_order` plus the newline:
the keyword is present but `(`, `)` and `descr` are all absent. -/
def cex6File : List Char := List.replicate 11 'x' ++ fortranKW ++ [nlChar]

/-- A header line containing none of the keywords. -/
def noFOHeader : List Char := helloChars ++ [nlChar]

/-- A scalar (rank-0) uint8 file: header plus its single payload byte. -/
def file7 : List Char := hdrOf [] Dtype.UInt8 ++ ['a']

/-- The array that loading `file7` produces. -/
def arr7 : NumpyArray :=
  { data_holder := some ['a'], shape_ := [], type_ := 'u', word_size_ := 1,
    fortran_order_ := false, num_elements_ := 1 }

/-- Rendered text of the empty shape. -/
def txtRank0 : List Char := "()".data

/-- Rendered text of shape `(5,)`. -/
def txtRank1 : List Char := "(5,)".data

/-- Rendered text of shape `(2, 3)`. -/
def txtRank2 : List Char := "(2, 3)".data

/-- A shape whose element product `2^90` overflows `size_t`: each dimension
is `2^30`, below `INT_MAX`, so every `std::stoi` in the shape parse
succeeds. -/
def ovflShape : List Nat := [1073741824, 1073741824, 1073741824]

/-- A file consisting of just the encoded uint8 header for `ovflShape`,
with zero payload bytes. -/
def ovflFile : List Char := hdrOf ovflShape Dtype.UInt8

/-- The metadata decoded from `ovflFile`. -/
def ovflInfo : HeaderInfo :=
  { type := 'u', word_size := 1, shape := ovflShape, fortran_order := false }

/-- The array that loading `ovflFile` produces: the element count wraps to
`2^90 mod 2^64 = 0`, so the buffer is empty and the payload read trivially
succeeds. -/
def ovflArr : NumpyArray :=
  { data_holder := some [], shape_ := ovflShape, type_ := 'u',
    word_size_ := 1, fortran_order_ := false, num_elements_ := 0 }

/-- The seven `(type, word_size)` conditions of the `GetDtype` table, in
source order. -/
abbrev tableProp (t : Char) (w : Nat) : Prop :=
  (t = 'f' ∧ w = 4) ∨ (t = 'f' ∧ w = 8) ∨ (t = 'i' ∧ w = 4) ∨
    (t = 'i' ∧ w = 8) ∨ (t = 'u' ∧ w = 1) ∨ (t = 'u' ∧ w = 2) ∨ t = 'b'

/-! ### Supporting lemmas -/

theorem readLineSplit (B : List Char) : ∀ (rest : List Char) (fuel : Nat),
    nlChar ∉ B → B.length < fuel →
    readLineAux fuel (B ++ nlChar :: rest) = (B ++ [nlChar], rest) := by
  induction B with
  | nil =>
    intro rest fuel _ hf
    match fuel, hf with
    | f + 1, _ => simp [readLineAux]
  | cons c t ih =>
    intro rest fuel hmem hf
    match fuel, hf with
    | f + 1, hf =>
      have hc : ¬ (c = nlChar) := fun h => hmem (by simp [h])
      have ht : nlChar ∉ t := fun h => hmem (List.mem_cons_of_mem _ h)
      have hlt : t.length < f := by simpa using hf
      simp [readLineAux, hc, ih rest f ht hlt]

theorem readLineLen : ∀ (fuel : Nat) (s : List Char),
    (readLineAux fuel s).1.length ≤ fuel := by
  intro fuel
  induction fuel with
  | zero => intro s; simp [readLineAux]
  | succ f ih =>
    intro s
    cases s with
    | nil => simp [readLineAux]
    | cons c t =>
      unfold readLineAux
      by_cases hc : c = nlChar
      · simp [hc]
      · simpa [hc] using Nat.succ_le_succ (ih t)

theorem getLastSplit {α : Type} {l : List α} {a : α}
    (h : l.getLast? = some a) : l = l.dropLast ++ [a] := by
  have hne : l ≠ [] := by rintro rfl; simp at h
  rw [List.getLast?_eq_getLast l hne, Option.some.injEq] at h
  conv_lhs => rw [← List.dropLast_append_getLast hne]
  rw [h]

theorem cStringAll {l : List Char} (h : nulChar ∉ l) : cString l = l := by
  unfold cString
  rw [List.takeWhile_eq_self_iff]
  intro x hx
  simp only [bne_iff_ne, ne_eq]
  exact fun he => h (he ▸ hx)

theorem natToDecAux_digits : ∀ (fuel n : Nat), ∀ c ∈ natToDecAux fuel n,
    c.isDigit = true := by
  intro fuel
  induction fuel with
  | zero => intro n c hc; simp [natToDecAux] at hc
  | succ f ih =>
    intro n c hc
    unfold natToDecAux at hc
    by_cases h : n < 10
    · simp only [if_pos h, List.mem_singleton] at hc
      subst hc
      interval_cases n <;> decide
    · simp only [if_neg h, List.mem_append, List.mem_singleton] at hc
      rcases hc with hc | hc
      · exact ih _ c hc
      · subst hc
        have h10 : n % 10 < 10 := Nat.mod_lt _ (by omega)
        revert h10
        generalize n % 10 = m
        intro h10
        interval_cases m <;> decide

theorem nl_notin_natToDec (n : Nat) : nlChar ∉ natToDec n := by
  intro h
  exact absurd (natToDecAux_digits (n + 1) n nlChar h) (by decide)

theorem foldlCommaFlatten : ∀ (l : List Nat) (acc : List Char),
    List.foldl (fun a x => a ++ commaSpace ++ natToDec x) acc l =
      acc ++ (l.map (fun x => commaSpace ++ natToDec x)).flatten := by
  intro l
  induction l with
  | nil => intro acc; simp
  | cons d t ih =>
    intro acc
    rw [List.foldl_cons, ih]
    simp [List.append_assoc]

theorem nl_notin_shapeText : ∀ (shape : List Nat), nlChar ∉ shapeText shape := by
  intro shape
  match shape with
  | [] => decide
  | [d] =>
    unfold shapeText
    intro h
    simp only [List.mem_append] at h
    rcases h with (h | h) | h
    · revert h; decide
    · exact nl_notin_natToDec d h
    · revert h; decide
  | d :: e :: t =>
    intro h
    rw [show shapeText (d :: e :: t) = "(".data ++ natToDec d ++
        List.foldl (fun acc x => acc ++ commaSpace ++ natToDec x) []
          (e :: t) ++ ")".data from rfl] at h
    rw [foldlCommaFlatten, List.nil_append] at h
    simp only [List.mem_append] at h
    rcases h with ((h | h) | h) | h
    · revert h; decide
    · exact nl_notin_natToDec d h
    · rw [List.mem_flatten] at h
      rcases h with ⟨l, hl, hnl⟩
      rw [List.mem_map] at hl
      rcases hl with ⟨x, _, rfl⟩
      rcases List.mem_append.1 hnl with h | h
      · revert h; decide
      · exact nl_notin_natToDec x h
    · revert h; decide

theorem dtypeCharCases (dtype : Dtype) (c : Char)
    (h : DtypeToChar dtype = .ok c) :
    c = 'f' ∨ c = 'i' ∨ c = 'u' ∨ c = 'b' := by
  cases dtype <;> simp [DtypeToChar] at h <;> subst h <;> decide

theorem nl_notin_dictChars (shape : List Nat) (c : Char) (bs : Nat)
    (hc : c ≠ nlChar) : nlChar ∉ dictChars shape c bs := by
  unfold dictChars
  intro h
  simp only [List.mem_append, List.mem_singleton] at h
  rcases h with ((((((h | h) | h) | h) | h) | h) | h)
  · revert h; decide
  · revert h; decide
  · exact hc h.symm
  · exact nl_notin_natToDec bs h
  · revert h; decide
  · exact nl_notin_shapeText shape h
  · revert h; decide

theorem atE_error_ub {s : List Char} {i : Nat} {e : NpError}
    (h : atE s i = .error e) : e = .ub := by
  unfold atE at h
  split at h
  · cases h
  · split at h
    · cases h
    · cases h; rfl

theorem substrE_error_oor {s : List Char} {pos count : Nat} {e : NpError}
    (h : substrE s pos count = .error e) : e = .outOfRange := by
  unfold substrE at h
  split at h
  · cases h; rfl
  · cases h

theorem substrAllE_error_oor {s : List Char} {pos : Nat} {e : NpError}
    (h : substrAllE s pos = .error e) : e = .outOfRange := by
  unfold substrAllE at h
  split at h
  · cases h; rfl
  · cases h

theorem parseDescr_assert (header : List Char) (i : Nat) (m : Char)
    (hd : strFind header descrKW = some i)
    (hm : atE header (i + 9) = .ok m)
    (hm1 : m ≠ '<') (hm2 : m ≠ '|') :
    parseDescr header = .error .assertFail := by
  unfold parseDescr
  simp only [hd, hm]
  rw [if_neg (by tauto)]

theorem parseDescr_no_assert (header : List Char) (i : Nat) (m : Char)
    (hd : strFind header descrKW = some i)
    (hm : atE header (i + 9) = .ok m)
    (hor : m = '<' ∨ m = '|') :
    parseDescr header ≠ .error .assertFail := by
  unfold parseDescr
  simp only [hd]
  simp only [hm]
  rw [if_pos hor]
  rcases h10 : atE header (i + 10) with e | ty
  · simp [atE_error_ub h10]
  · simp only [h10]
    rcases h11 : substrAllE header (i + 11) with e | str_ws
    · simp [substrAllE_error_oor h11]
    · simp only [h11]
      rcases h12 : substrE str_ws 0 (match strFind str_ws quoteKW with
          | some j => j
          | none => nposVal) with e | wstr
      · simp [substrE_error_oor h12]
      · simp [h12]

/-! ### C2 and its witness -/

/-- C2: for every shape and every supported element type (the types on
which `DtypeToChar` succeeds, with code `c`), the number of padding spaces
`16 - (10 + L) % 16 - 1` lies in `[0, 15]` (where `L` is the pre-padding
dict length), `10` plus the final dict length is a multiple of 16, the dict
ends with exactly one newline and contains no other newline, and
`CreateNumpyHeader` emits exactly this dict inside the fixed envelope. -/
theorem C2_header_padding (shape : List Nat) (dtype : Dtype) (c : Char)
    (hc : DtypeToChar dtype = .ok c) :
    16 - (10 + (dictChars shape c dtype.ByteSize).length) % 16 - 1 ≤ 15 ∧
    (10 + (paddedDict shape c dtype.ByteSize).length) % 16 = 0 ∧
    (paddedDict shape c dtype.ByteSize).count nlChar = 1 ∧
    (paddedDict shape c dtype.ByteSize).getLast? = some nlChar ∧
    CreateNumpyHeader shape dtype =
      .ok (headerEnvelope (paddedDict shape c dtype.ByteSize)) := by
  have hcc : c ≠ nlChar := by
    rcases dtypeCharCases dtype c hc with rfl | rfl | rfl | rfl <;> decide
  have hnd := nl_notin_dictChars shape c dtype.ByteSize hcc
  refine ⟨by omega, ?_, ?_, ?_, ?_⟩
  · unfold paddedDict
    simp only [List.length_append, List.length_replicate, List.length_cons,
      List.length_nil]
    omega
  · unfold paddedDict
    rw [List.count_append, List.count_append]
    rw [List.count_eq_zero.2 hnd]
    rw [List.count_eq_zero.2 (fun hmem =>
      absurd (List.mem_replicate.1 hmem).2 (by decide))]
    decide
  · show (dictChars shape c dtype.ByteSize ++
        List.replicate
          (16 - (10 + (dictChars shape c dtype.ByteSize).length) % 16 - 1)
          ' ' ++ [nlChar]).getLast? = some nlChar
    exact List.getLast?_concat _
  · unfold CreateNumpyHeader
    rw [hc]

/-- C2 witness: the padding invariants at shape `(2, 3)` and `Float32`. -/
theorem C2_header_padding_witness :
    DtypeToChar Dtype.Float32 = .ok 'f' ∧
    (16 - (10 + (dictChars [2, 3] 'f' Dtype.Float32.ByteSize).length) % 16 - 1 ≤ 15 ∧
     (10 + (paddedDict [2, 3] 'f' Dtype.Float32.ByteSize).length) % 16 = 0 ∧
     (paddedDict [2, 3] 'f' Dtype.Float32.ByteSize).count nlChar = 1 ∧
     (paddedDict [2, 3] 'f' Dtype.Float32.ByteSize).getLast? = some nlChar ∧
     CreateNumpyHeader [2, 3] Dtype.Float32 =
       .ok (headerEnvelope (paddedDict [2, 3] 'f' Dtype.Float32.ByteSize))) :=
  ⟨by decide, C2_header_padding [2, 3] Dtype.Float32 'f' (by decide)⟩

/-! ### C10 -/

theorem interConsFlatten (sep : List Char) : ∀ (xs : List (List Char)) (x : List Char),
    List.intercalate sep (x :: xs) =
      x ++ (xs.map (fun y => sep ++ y)).flatten := by
  intro xs
  induction xs with
  | nil => intro x; simp [List.intercalate, List.intersperse]
  | cons y t ih =>
    intro x
    have hstep : List.intercalate sep (x :: y :: t) =
        x ++ sep ++ List.intercalate sep (y :: t) := by
      simp [List.intercalate, List.intersperse, List.append_assoc]
    rw [hstep, ih y]
    simp [List.append_assoc]

/-- C10: the shape text is `"()"` for rank 0, `"(5,)"` for shape `(5,)`,
`"(2, 3)"` for shape `(2, 3)`, and in general for rank ≥ 2 the dimensions
are joined by comma+space with no trailing comma. -/
theorem C10_shape_text :
    shapeText [] = txtRank0 ∧
    shapeText [5] = txtRank1 ∧
    shapeText [2, 3] = txtRank2 ∧
    ∀ (a b : Nat) (rest : List Nat),
      shapeText (a :: b :: rest) =
        "(".data ++
          List.intercalate commaSpace (List.map natToDec (a :: b :: rest)) ++
          ")".data := by
  refine ⟨by decide, by decide, by decide, ?_⟩
  intro a b rest
  rw [show shapeText (a :: b :: rest) = "(".data ++ natToDec a ++
      List.foldl (fun acc x => acc ++ commaSpace ++ natToDec x) []
        (b :: rest) ++ ")".data from rfl]
  rw [foldlCommaFlatten, List.nil_append]
  rw [show List.map natToDec (a :: b :: rest) =
      natToDec a :: List.map natToDec (b :: rest) from rfl]
  rw [interConsFlatten]
  simp only [List.map_map, Function.comp_def, List.append_assoc]

/-! ### Round trip: parsing back an encoded header -/

set_option maxRecDepth 8192
set_option maxHeartbeats 1600000

theorem parseOnSaved (hdr B payload : List Char) (info : HeaderInfo)
    (h2 : 11 ≤ hdr.length)
    (hA : hdr.drop 11 = B ++ [nlChar])
    (hnoNl : nlChar ∉ B)
    (hlen254 : B.length ≤ 254)
    (hno0 : nulChar ∉ hdr.drop 11)
    (h7 : parseHeaderLine (hdr.drop 11) = .ok info) :
    ParseNumpyHeader (hdr ++ payload) = .ok (info, payload) := by
  have hlen11 : ¬ ((hdr ++ payload).length < 11) := by
    rw [List.length_append]; omega
  have hdrop : (hdr ++ payload).drop 11 = hdr.drop 11 ++ payload :=
    List.drop_append_of_le_length h2
  have hsplit : hdr.drop 11 ++ payload = B ++ nlChar :: payload := by
    rw [hA, List.append_assoc, List.singleton_append]
  have hfg : fgets256 (B ++ nlChar :: payload) =
      some (B ++ [nlChar], payload) := by
    unfold fgets256
    rw [if_neg (by simp), readLineSplit B payload 255 hnoNl (by omega)]
  have hcs : cString (B ++ [nlChar]) = B ++ [nlChar] := by
    apply cStringAll
    rw [← hA]
    exact hno0
  have hlast : (B ++ [nlChar]).getLast? = some nlChar := List.getLast?_concat _
  unfold ParseNumpyHeader
  rw [if_neg hlen11, hdrop, hsplit]
  simp only [hfg]
  rw [hcs]
  rw [if_neg (by simp)]
  rw [if_neg (by simp [hlast])]
  rw [← hA]
  simp only [h7]

theorem saveLoadRT2 (shape : List Nat) (d : Dtype)
    (h1 : CreateNumpyHeader shape d = .ok (hdrOf shape d))
    (h2 : 11 ≤ (hdrOf shape d).length)
    (h3 : ((hdrOf shape d).drop 11).getLast? = some nlChar)
    (h4 : nlChar ∉ ((hdrOf shape d).drop 11).dropLast)
    (h5 : ((hdrOf shape d).drop 11).dropLast.length ≤ 254)
    (h6 : nulChar ∉ (hdrOf shape d).drop 11)
    (h7 : parseHeaderLine ((hdrOf shape d).drop 11) = .ok (infoOf shape d))
    (h8 : getDtypeRaw (infoOf shape d).type (infoOf shape d).word_size = .ok d)
    (h9 : (infoOf shape d).shape = shape)
    (h11 : (infoOf shape d).fortran_order = false)
    (h12 : (infoOf shape d).shape.foldl (fun a b => a * b % sizeTMod) 1 *
        (infoOf shape d).word_size % sizeTMod =
      shape.foldl (fun a b => a * b) 1 * d.ByteSize) :
    ∀ payload : List Char,
      payload.length = shape.foldl (fun a b => a * b) 1 * d.ByteSize →
      ∃ file arr, NumpySave true payload shape d = .ok file ∧
        NumpyArray.Load fnA (some file) = .ok arr ∧
        arr.GetShape = shape ∧ arr.GetDtype = .ok d ∧
        arr.GetFortranOrder = false ∧ arr.data_holder = some payload := by
  intro payload hlen
  have hA : (hdrOf shape d).drop 11 =
      ((hdrOf shape d).drop 11).dropLast ++ [nlChar] := getLastSplit h3
  have hsave : NumpySave true payload shape d =
      .ok (hdrOf shape d ++ payload) := by
    unfold NumpySave
    simp only [h1]
    rw [if_neg (by decide)]
    rw [if_neg (by omega)]
    rw [← hlen, List.take_length]
  have hP : ParseNumpyHeader (hdrOf shape d ++ payload) =
      .ok (infoOf shape d, payload) :=
    parseOnSaved (hdrOf shape d) (((hdrOf shape d).drop 11).dropLast) payload
      (infoOf shape d) h2 hA h4 h5 h6 h7
  have hnb : (infoOf shape d).shape.foldl (fun a b => a * b % sizeTMod) 1 *
      (infoOf shape d).word_size % sizeTMod = payload.length := by
    rw [h12, hlen]
  refine ⟨hdrOf shape d ++ payload,
    { data_holder := some payload, shape_ := (infoOf shape d).shape,
      type_ := (infoOf shape d).type,
      word_size_ := (infoOf shape d).word_size,
      fortran_order_ := (infoOf shape d).fortran_order,
      num_elements_ :=
        (infoOf shape d).shape.foldl (fun a b => a * b % sizeTMod) 1 },
    hsave, ?_, ?_, ?_, ?_, rfl⟩
  · unfold NumpyArray.Load
    simp only [hP]
    simp only [NumpyArray.construct, NumpyArray.NumBytes,
      List.length_replicate]
    rw [hnb, Nat.min_self]
    rw [if_neg (by simp)]
    rw [List.take_length]
  · exact h9
  · exact h8
  · exact h11

/-- C1: for every element type in the supported seven and every shape in
`()`, `(5,)`, `(2, 3)`, `(0,)`, saving (header encoding via
`CreateNumpyHeader` plus raw payload, i.e. `NumpySave`) and loading back
(`ParseNumpyHeader` plus payload read, i.e. `NumpyArray.Load`) reproduces
the identical shape, the identical element type via `GetDtype`,
`fortran_order = false`, and a byte-identical payload. -/
theorem C1_round_trip :
    ∀ d ∈ supportedDtypes, ∀ s ∈ rtShapes, ∀ payload : List Char,
      payload.length = s.foldl (fun a b => a * b) 1 * d.ByteSize →
      ∃ file arr, NumpySave true payload s d = .ok file ∧
        NumpyArray.Load fnA (some file) = .ok arr ∧
        arr.GetShape = s ∧ arr.GetDtype = .ok d ∧
        arr.GetFortranOrder = false ∧ arr.data_holder = some payload := by
  intro d hd s hs
  simp only [supportedDtypes, List.mem_cons, List.not_mem_nil, or_false] at hd
  simp only [rtShapes, List.mem_cons, List.not_mem_nil, or_false] at hs
  rcases hd with rfl | rfl | rfl | rfl | rfl | rfl | rfl <;>
    rcases hs with rfl | rfl | rfl | rfl <;>
      exact saveLoadRT2 _ _ rfl (by decide) rfl (by decide) (by decide)
        (by decide) rfl rfl rfl rfl (by decide)

/-- C1 witness: the round trip at element type Float32, shape `(2, 3)` and
a concrete 24-byte payload. -/
theorem C1_round_trip_witness :
    ∃ file arr, NumpySave true pl24 [2, 3] Dtype.Float32 = .ok file ∧
      NumpyArray.Load fnA (some file) = .ok arr ∧
      arr.GetShape = [2, 3] ∧ arr.GetDtype = .ok Dtype.Float32 ∧
      arr.GetFortranOrder = false ∧ arr.data_holder = some pl24 :=
  C1_round_trip Dtype.Float32 (by decide) [2, 3] (by decide) pl24 (by decide)

/-! ### C3 -/

/-- C3 counterexample: on a well-formed `(5,)` uint8 file whose descr
marker is `'>'`, `Load` does not fail with a byte-order-specific error: it
hits the generic `assert(littleEndian)` — the very same `assertFail`
outcome that a completely different malformation (a header line with no
newline at all) produces. -/
theorem C3_counterexample :
    NumpyArray.Load fnA (some gtFile) = .error .assertFail ∧
    NumpyArray.Load fnA (some noNlFile3) = .error .assertFail := by decide

/-- C3 (amended): with the earlier header sections parsed successfully and
the descr keyword found at `i` with marker character `m = header[i + 9]`, a
marker other than `'<'` or `'|'` makes the decode fail through the
debug-build `assert` (not a typed `UnsupportedByteOrderError`), while
`'<'` and `'|'` are both accepted and decoding proceeds past the
assertion. -/
theorem C3_amended (header : List Char) (i : Nat) (m : Char) (fo : Bool)
    (sh : List Nat)
    (hfo : parseFortran header = .ok fo)
    (hsh : parseShape header = .ok sh)
    (hd : strFind header descrKW = some i)
    (hm : atE header (i + 9) = .ok m) :
    (m ≠ '<' → m ≠ '|' → parseHeaderLine header = .error .assertFail) ∧
    ((m = '<' ∨ m = '|') → parseHeaderLine header ≠ .error .assertFail) := by
  constructor
  · intro hm1 hm2
    unfold parseHeaderLine
    simp only [hfo, hsh]
    simp only [parseDescr_assert header i m hd hm hm1 hm2]
  · intro hor
    unfold parseHeaderLine
    simp only [hfo, hsh]
    rcases hpd : parseDescr header with e | p
    · simp only [hpd]
      have hne := parseDescr_no_assert header i m hd hm hor
      rw [hpd] at hne
      have he : e ≠ .assertFail := fun hc => hne (by rw [hc])
      intro hc
      injection hc with hc2
      exact he hc2
    · obtain ⟨ty, ws⟩ := p
      simp only [hpd]
      simp

/-- C3 witness: on the well-formed `(5,)` uint8 header line the marker is
`'<'` and the decode passes the byte-order assertion. -/
theorem C3_amended_witness :
    parseHeaderLine okHdr5u ≠ .error .assertFail :=
  (C3_amended okHdr5u 1 '<' false [5] rfl rfl rfl rfl).2 (Or.inl rfl)

/-! ### C4 -/

theorem getDtypeRaw_b (w : Nat) : getDtypeRaw 'b' w = .ok Dtype.Bool := by
  unfold getDtypeRaw
  rw [if_neg (fun h => absurd h.1 (by decide)),
      if_neg (fun h => absurd h.1 (by decide)),
      if_neg (fun h => absurd h.1 (by decide)),
      if_neg (fun h => absurd h.1 (by decide)),
      if_neg (fun h => absurd h.1 (by decide)),
      if_neg (fun h => absurd h.1 (by decide)),
      if_pos rfl]

theorem getDtypeRaw_unsupported (t : Char) (w : Nat)
    (hna : ¬ tableProp t w) :
    getDtypeRaw t w = .error (.logError (unsupNumpyMsg t w)) := by
  unfold getDtypeRaw
  rw [if_neg (fun h => hna (Or.inl h)),
      if_neg (fun h => hna (Or.inr (Or.inl h))),
      if_neg (fun h => hna (Or.inr (Or.inr (Or.inl h)))),
      if_neg (fun h => hna (Or.inr (Or.inr (Or.inr (Or.inl h))))),
      if_neg (fun h => hna (Or.inr (Or.inr (Or.inr (Or.inr (Or.inl h)))))),
      if_neg (fun h =>
        hna (Or.inr (Or.inr (Or.inr (Or.inr (Or.inr (Or.inl h))))))),
      if_neg (fun h =>
        hna (Or.inr (Or.inr (Or.inr (Or.inr (Or.inr (Or.inr h)))))))]

theorem getDtypeRaw_ok_iff (t : Char) (w : Nat) :
    (getDtypeRaw t w).isOk = true ↔ tableProp t w := by
  constructor
  · intro hok
    by_contra hna
    rw [getDtypeRaw_unsupported t w hna] at hok
    exact Bool.noConfusion hok
  · intro h
    rcases h with ⟨rfl, rfl⟩ | ⟨rfl, rfl⟩ | ⟨rfl, rfl⟩ | ⟨rfl, rfl⟩ |
      ⟨rfl, rfl⟩ | ⟨rfl, rfl⟩ | rfl
    · rfl
    · rfl
    · rfl
    · rfl
    · rfl
    · rfl
    · rw [getDtypeRaw_b w]
      rfl

/-- C4: the element-type mapping is total on and closed over the fixed
table: `DtypeToChar` succeeds exactly on the seven supported types and
fails with the unsupported-dtype `LogError` on every other host type; the
inverse lookup (`GetDtype`) succeeds exactly on the table pairs, fails
with the unsupported-numpy-type `LogError` on every pair outside it — in
particular `('f', 2)` — and for code `'b'` the word size is ignored. -/
theorem C4_mapping_closure :
    (∀ dt : Dtype, dt ∈ supportedDtypes → (DtypeToChar dt).isOk = true) ∧
    (∀ dt : Dtype, dt ∉ supportedDtypes →
      DtypeToChar dt = .error (.logError (unsupDtypeMsg dt))) ∧
    (∀ a : NumpyArray, (a.GetDtype).isOk = true ↔
      ((a.type_ = 'f' ∧ a.word_size_ = 4) ∨ (a.type_ = 'f' ∧ a.word_size_ = 8) ∨
       (a.type_ = 'i' ∧ a.word_size_ = 4) ∨ (a.type_ = 'i' ∧ a.word_size_ = 8) ∨
       (a.type_ = 'u' ∧ a.word_size_ = 1) ∨ (a.type_ = 'u' ∧ a.word_size_ = 2) ∨
       a.type_ = 'b')) ∧
    (∀ a : NumpyArray,
      ¬ ((a.type_ = 'f' ∧ a.word_size_ = 4) ∨ (a.type_ = 'f' ∧ a.word_size_ = 8) ∨
         (a.type_ = 'i' ∧ a.word_size_ = 4) ∨ (a.type_ = 'i' ∧ a.word_size_ = 8) ∨
         (a.type_ = 'u' ∧ a.word_size_ = 1) ∨ (a.type_ = 'u' ∧ a.word_size_ = 2) ∨
         a.type_ = 'b') →
      a.GetDtype = .error (.logError (unsupNumpyMsg a.type_ a.word_size_))) ∧
    (∀ a : NumpyArray, a.type_ = 'b' → a.GetDtype = .ok Dtype.Bool) ∧
    NumpyArray.GetDtype (NumpyArray.construct [] 'f' 2 false) =
      .error (.logError (unsupNumpyMsg 'f' 2)) := by
  refine ⟨?_, ?_, ?_, ?_, ?_, rfl⟩
  · intro dt hdt
    simp only [supportedDtypes, List.mem_cons, List.not_mem_nil, or_false]
      at hdt
    rcases hdt with rfl | rfl | rfl | rfl | rfl | rfl | rfl <;> rfl
  · intro dt hdt
    cases dt <;> first | rfl | exact absurd (by decide) hdt
  · intro a
    exact getDtypeRaw_ok_iff a.type_ a.word_size_
  · intro a hna
    exact getDtypeRaw_unsupported a.type_ a.word_size_ hna
  · intro a hb
    show getDtypeRaw a.type_ a.word_size_ = .ok Dtype.Bool
    rw [hb]
    exact getDtypeRaw_b a.word_size_

/-- C4 witness: for code `'b'` the word size (here 7) is ignored and
decoding yields `Bool`. -/
theorem C4_mapping_closure_witness :
    NumpyArray.GetDtype (NumpyArray.construct [] 'b' 7 false) =
      .ok Dtype.Bool :=
  C4_mapping_closure.2.2.2.2.1 (NumpyArray.construct [] 'b' 7 false) rfl

/-! ### C5 -/

/-- C5 counterexample: a well-formed header whose shape is
`(2^30, 2^30, 2^30)` with `'<u1'` declares `product(shape) * word_size =
2^90` payload bytes, and the stream supplies 0 of them, yet `Load`
succeeds and returns an array: the `size_t` element count wraps to
`2^90 mod 2^64 = 0`, the allocated buffer is empty, and `fread` reads
`0 == NumBytes()` bytes. -/
theorem C5_counterexample :
    NumpyArray.Load fnA (some ovflFile) = .ok ovflArr ∧
    ParseNumpyHeader ovflFile = .ok (ovflInfo, []) ∧
    (0 : Nat) <
      ovflInfo.shape.foldl (fun a b => a * b) 1 * ovflInfo.word_size := by
  refine ⟨by decide, by decide, by decide⟩

/-- C5 (amended): whenever the header parses successfully, the byte count
the program actually expects is the one it allocates — the `size_t`
product of the dimensions (each multiplication mod `2^64`) times the word
size, again mod `2^64`.  If the stream holds fewer bytes than that, `Load`
fails with the truncation `LogError` and returns no buffer.  (For shapes
whose exact product fits in 64 bits this is the claimed
`product(shape) * word_size`; when it overflows, the count wraps and a
shorter stream can load successfully, as the counterexample shows.) -/
theorem C5_truncation (name : String) (s : List Char) (info : HeaderInfo)
    (rest : List Char)
    (hp : ParseNumpyHeader s = .ok (info, rest))
    (hlt : rest.length <
      info.shape.foldl (fun a b => a * b % sizeTMod) 1 * info.word_size %
        sizeTMod) :
    NumpyArray.Load name (some s) = .error (.logError msgLoadFread) := by
  unfold NumpyArray.Load
  simp only [hp]
  simp only [NumpyArray.construct, NumpyArray.NumBytes, List.length_replicate]
  have hm : min rest.length
      (info.shape.foldl (fun a b => a * b % sizeTMod) 1 * info.word_size %
        sizeTMod) ≠
      info.shape.foldl (fun a b => a * b % sizeTMod) 1 * info.word_size %
        sizeTMod := by
    rw [Nat.min_eq_left (by omega)]
    omega
  rw [if_pos hm]

/-- C5 witness: the `(5,)` uint8 header declares 5 bytes; with only 3
supplied the load fails with the truncation error. -/
theorem C5_truncation_witness :
    NumpyArray.Load fnA (some truncFile) = .error (.logError msgLoadFread) :=
  C5_truncation fnA truncFile truncInfo abcChars (by decide) (by decide)

/-! ### C6 -/

/-- C6 counterexample: the header line `"fortran_order\n"` lacks `(`, `)`
and `descr`, yet `Load` does not fail with a missing-keyword `LogError`: the
keyword `fortran_order` is found at position 0 and the fixed-offset value
read `header.substr(16, 4)` throws `std::out_of_range` first. -/
theorem C6_counterexample :
    NumpyArray.Load fnA (some cex6File) = .error .outOfRange ∧
    strFind (fortranKW ++ [nlChar]) parenL = none ∧
    strFind (fortranKW ++ [nlChar]) parenR = none ∧
    strFind (fortranKW ++ [nlChar]) descrKW = none := by decide

/-- C6 (amended): each of the three keyword checks fails with the
`LogError` naming the missing field, provided the earlier sections
completed: a missing `fortran_order` is reported always; a missing `(` or
`)` is reported when the fortran_order section succeeded; a missing
`descr` is reported when both earlier sections succeeded.  (When a found
keyword's fixed-offset value read goes out of bounds, parsing instead
fails with `std::out_of_range`, as the counterexample shows.) -/
theorem C6_amended :
    (∀ header : List Char, strFind header fortranKW = none →
      parseHeaderLine header = .error (.logError msgNoFortran)) ∧
    (∀ (header : List Char) (fo : Bool), parseFortran header = .ok fo →
      (strFind header parenL = none ∨ strFind header parenR = none) →
      parseHeaderLine header = .error (.logError msgNoParen)) ∧
    (∀ (header : List Char) (fo : Bool) (sh : List Nat),
      parseFortran header = .ok fo → parseShape header = .ok sh →
      strFind header descrKW = none →
      parseHeaderLine header = .error (.logError msgNoDescr)) := by
  refine ⟨?_, ?_, ?_⟩
  · intro header hf
    have hpf : parseFortran header = .error (.logError msgNoFortran) := by
      unfold parseFortran
      rw [hf]
    unfold parseHeaderLine
    simp only [hpf]
  · intro header fo hfo hor
    have hps : parseShape header = .error (.logError msgNoParen) := by
      unfold parseShape
      rcases hor with h | h
      · rcases hR : strFind header parenR with _ | v <;> simp only [h, hR]
      · rcases hL : strFind header parenL with _ | v <;> simp only [h, hL]
    unfold parseHeaderLine
    simp only [hfo, hps]
  · intro header fo sh hfo hsh hd
    have hpd : parseDescr header = .error (.logError msgNoDescr) := by
      unfold parseDescr
      rw [hd]
    unfold parseHeaderLine
    simp only [hfo, hsh, hpd]

/-- C6 witness: a header line with no keywords at all fails naming
`fortran_order`. -/
theorem C6_amended_witness :
    parseHeaderLine noFOHeader = .error (.logError msgNoFortran) :=
  C6_amended.1 noFOHeader (by decide)

/-! ### C7 -/

/-- C7 counterexample: a default-constructed `NumpyArray` does not have an
empty buffer with `ByteLength 0`: its `data_holder` is a null
`shared_ptr`, so `NumBytes()` dereferences a null pointer. -/
theorem C7_counterexample :
    (NumpyArray.defaultCtor 'a').NumBytes = .error .ub ∧
    (NumpyArray.defaultCtor 'a').NumBytes ≠ .ok 0 := by decide

/-- C7 (amended): every shape/type-constructed array satisfies
`ByteLength = (num_elements * word_size) mod 2^64` — the `size_t`
product — with a zero-initialised buffer and element count the `size_t`
product of the dimensions (each multiplication mod `2^64`; 1 for the empty
shape); every array returned by `Load` satisfies the same wrapped
invariant (the buffer is filled, never resized); a default-constructed
array has empty shape, zero word size, zero elements, and a null (not
empty) buffer handle. -/
theorem C7_buffer_invariant :
    (∀ (shape : List Nat) (t : Char) (w : Nat) (fo : Bool),
      (NumpyArray.construct shape t w fo).NumBytes =
        .ok ((NumpyArray.construct shape t w fo).num_elements_ *
          (NumpyArray.construct shape t w fo).word_size_ % sizeTMod) ∧
      (NumpyArray.construct shape t w fo).num_elements_ =
        shape.foldl (fun a b => a * b % sizeTMod) 1 ∧
      (NumpyArray.construct shape t w fo).data_holder =
        some (List.replicate
          (shape.foldl (fun a b => a * b % sizeTMod) 1 * w % sizeTMod)
          nulChar) ∧
      (shape = [] → (NumpyArray.construct shape t w fo).num_elements_ = 1)) ∧
    (∀ t : Char,
      (NumpyArray.defaultCtor t).shape_ = [] ∧
      (NumpyArray.defaultCtor t).word_size_ = 0 ∧
      (NumpyArray.defaultCtor t).num_elements_ = 0 ∧
      (NumpyArray.defaultCtor t).data_holder = none ∧
      (NumpyArray.defaultCtor t).NumBytes = .error .ub) ∧
    (∀ (name : String) (s : List Char) (arr : NumpyArray),
      NumpyArray.Load name (some s) = .ok arr →
      arr.NumBytes = .ok (arr.num_elements_ * arr.word_size_ % sizeTMod)) := by
  refine ⟨?_, ?_, ?_⟩
  · intro shape t w fo
    refine ⟨?_, rfl, rfl, ?_⟩
    · simp [NumpyArray.construct, NumpyArray.NumBytes]
    · intro h
      subst h
      rfl
  · intro t
    exact ⟨rfl, rfl, rfl, rfl, rfl⟩
  · intro name s arr h
    unfold NumpyArray.Load at h
    rcases hp : ParseNumpyHeader s with e | pr
    · simp [hp] at h
    · obtain ⟨info, rest⟩ := pr
      simp only [hp, NumpyArray.construct, NumpyArray.NumBytes,
        List.length_replicate] at h
      by_cases hmin : min rest.length
          (info.shape.foldl (fun a b => a * b % sizeTMod) 1 *
            info.word_size % sizeTMod) ≠
          info.shape.foldl (fun a b => a * b % sizeTMod) 1 *
            info.word_size % sizeTMod
      · rw [if_pos hmin] at h
        cases h
      · rw [if_neg hmin] at h
        push_neg at hmin
        injection h with h2
        subst h2
        simp only [NumpyArray.NumBytes, List.length_take]
        congr 1
        omega
  
/-- C7 witness: a concrete successful load (scalar uint8 file) produces an
array satisfying the byte-length invariant. -/
theorem C7_buffer_invariant_witness :
    NumpyArray.Load fnA (some file7) = .ok arr7 ∧
    arr7.NumBytes = .ok (arr7.num_elements_ * arr7.word_size_ % sizeTMod) :=
  ⟨by decide, C7_buffer_invariant.2.2 fnA file7 arr7 (by decide)⟩

/-! ### C8 -/

/-- C8 counterexample: a stream whose header line never ends in a newline
makes the decode fail through the debug-build `assert`, not through a
missing-keyword/`MalformedHeaderError`-style `LogError`. -/
theorem C8_counterexample :
    NumpyArray.Load fnA (some noNlFile8) = .error .assertFail := by decide

/-- C8 (amended): after the 11 discarded preamble bytes, one line of at
most 255 characters (256-byte `fgets` buffer) is read, and a line that
does not end with a newline makes the decode fail through the debug-build
`assert` rather than proceeding (in builds with assertions disabled the
check vanishes; it is not a typed `MalformedHeaderError`). -/
theorem C8_amended (s line rest : List Char)
    (h11 : 11 ≤ s.length)
    (hf : fgets256 (s.drop 11) = some (line, rest))
    (hne : cString line ≠ [])
    (hnl : (cString line).getLast? ≠ some nlChar) :
    ParseNumpyHeader s = .error .assertFail ∧ line.length ≤ 255 := by
  constructor
  · unfold ParseNumpyHeader
    rw [if_neg (by omega)]
    simp only [hf]
    rw [if_neg (by simpa [List.length_eq_zero] using hne)]
    rw [if_pos hnl]
  · unfold fgets256 at hf
    by_cases hsd : s.drop 11 = []
    · rw [if_pos hsd] at hf
      cases hf
    · rw [if_neg hsd] at hf
      injection hf with hf
      have hline : line = (readLineAux 255 (s.drop 11)).1 := by rw [hf]
      rw [hline]
      exact readLineLen 255 _

/-- C8 witness: a concrete 13-byte stream whose 2-character header line
has no newline. -/
theorem C8_amended_witness :
    ParseNumpyHeader noNlFile8b = .error .assertFail ∧ zzChars.length ≤ 255 :=
  C8_amended noNlFile8b zzChars [] (by decide) (by decide) (by decide)
    (by decide)

/-! ### C9 -/

/-- C9: `NumpySave` never checks the result of `fopen`: when the path
cannot be opened the null `FILE*` is passed to `fseek`/`fwrite`/`fclose`
(undefined behaviour), not a `FileOpenError`; when the path opens, the
written file is exactly the encoded header followed by
`product(shape) * ByteSize` payload bytes. -/
theorem C9_save_unchecked_fopen :
    NumpySave false abcChars [3] Dtype.UInt8 = .error .ub ∧
    NumpySave true abcChars [3] Dtype.UInt8 =
      .ok (hdrOf [3] Dtype.UInt8 ++ abcChars) := by decide
